import Mathlib

/-!
Verification of the sermon-scraper pipeline (`scrape_jordan_khutbah.py`).

This file gives a shallow embedding of the pure core of the program:
the listing parser, the title extractor (including its regex heuristics),
the filename sanitizer, the bidirectional-text renderer wrapper, the cover
composer (modelled as a sequence of canvas drawing operations), the document
merger, and the per-entry orchestration loop.  External libraries
(`requests`, `BeautifulSoup`, `urljoin`, `pdfplumber`, `arabic_reshaper`,
`bidi`, `textwrap`, `reportlab`, `pypdf`) are modelled as explicit
parameters, so every theorem quantifies over their behavior where it
matters.  Machine text is modelled as `List Char` (Python `str` code
points); Python's `\s` and `\d` classes are modelled by `Char.isWhitespace`
and ASCII `Char.isDigit` (all inputs the claims exercise are within these
classes).
-/

set_option maxRecDepth 65536

/-- Python `\s` character class (whitespace), as used by `str.split`,
`str.strip`, and the regexes in the program. -/
def isPySpace (c : Char) : Bool := c.isWhitespace

/-- Python `str.strip()`: drop leading and trailing whitespace. -/
def pyStripWs (cs : List Char) : List Char :=
  ((cs.dropWhile isPySpace).reverse.dropWhile isPySpace).reverse

/-- Python `str.strip(set)`: drop leading and trailing characters from a set. -/
def pyStripSet (bad : Char → Bool) (cs : List Char) : List Char :=
  ((cs.dropWhile bad).reverse.dropWhile bad).reverse

/-- Python `str.rstrip()`: drop trailing whitespace. -/
def pyRstripWs (cs : List Char) : List Char :=
  (cs.reverse.dropWhile isPySpace).reverse

/-- Fuel-indexed worker for `collapseRuns`; each recursive call strictly
shrinks the list, so fuel equal to the list length always suffices and the
fuel-exhausted branch is unreachable. -/
def collapseRunsGo : Nat → List Char → List Char
  | 0, cs => cs
  | _ + 1, [] => []
  | f + 1, c :: rest =>
    if isPySpace c then ' ' :: collapseRunsGo f (rest.dropWhile isPySpace)
    else c :: collapseRunsGo f rest

/-- `re.sub(r"\s+", " ", s)`: collapse each whitespace run to a single space. -/
def collapseRuns (cs : List Char) : List Char := collapseRunsGo cs.length cs

/-- Fuel-indexed worker for `pySplitWs`; fuel equal to the list length
always suffices (each call strictly shrinks the list). -/
def pySplitWsGo : Nat → List Char → List (List Char)
  | 0, _ => []
  | _ + 1, [] => []
  | f + 1, c :: rest =>
    if isPySpace c then pySplitWsGo f rest
    else
      (c :: rest).takeWhile (fun d => !isPySpace d) ::
        pySplitWsGo f ((c :: rest).dropWhile (fun d => !isPySpace d))

/-- Python `str.split()` (no separator): split on whitespace runs,
dropping empty fields. -/
def pySplitWs (cs : List Char) : List (List Char) := pySplitWsGo cs.length cs

/-- `" ".join(words)`. -/
def joinSpace : List (List Char) → List Char
  | [] => []
  | [w] => w
  | w :: rest => w ++ ' ' :: joinSpace rest

/-- `" ".join(text.split())`, the whitespace collapsing used in
`extract_title_from_pdf`. -/
def joinSplitWs (cs : List Char) : List Char := joinSpace (pySplitWs cs)

/-- The regex character class `[؀-ۿ]` (`ARABIC_RE`). -/
def isArabicChar (c : Char) : Bool := 0x0600 ≤ c.toNat && c.toNat ≤ 0x06FF

/-- `contains_arabic` from the source: does the string contain a character
of the Arabic Unicode block? -/
def contains_arabic (s : String) : Bool := s.toList.any isArabicChar

/-- The filesystem-unsafe characters removed by `sanitize_filename_component`
(the regex class `[\\/:"*?<>|]`). -/
def forbiddenChar (c : Char) : Bool :=
  c = '\\' || c = '/' || c = ':' || c = '\x22' || c = '*' || c = '?' ||
    c = '<' || c = '>' || c = '|'

/-- `sanitize_filename_component(s, max_len)`: strip, collapse whitespace,
remove forbidden characters, strip spaces and dots, truncate to `max_len`
(right-stripping after the cut), and fall back to `"untitled"` when empty.
The regex `re.sub(r'[\\/:"*?<>|]+', "", s)` removes every occurrence of the
class, i.e. filters those characters out. -/
def sanitize_filename_component (s : String) (maxLen : Nat) : String :=
  let cs := pyStripWs s.toList
  let cs := collapseRuns cs
  let cs := cs.filter (fun c => !forbiddenChar c)
  let cs := pyStripSet (fun c => c = ' ' || c = '.') cs
  let cs := if maxLen < cs.length then pyRstripWs (cs.take maxLen) else cs
  if cs.isEmpty then "untitled" else ⟨cs⟩

theorem mem_of_mem_dropWhile {p : Char → Bool} {l : List Char} {c : Char}
    (h : c ∈ l.dropWhile p) : c ∈ l :=
  (List.dropWhile_sublist p (l := l)).mem h

theorem mem_of_mem_pyStripSet {bad : Char → Bool} {l : List Char} {c : Char}
    (h : c ∈ pyStripSet bad l) : c ∈ l := by
  unfold pyStripSet at h
  rw [List.mem_reverse] at h
  have h2 := mem_of_mem_dropWhile h
  rw [List.mem_reverse] at h2
  exact mem_of_mem_dropWhile h2

theorem mem_of_mem_pyRstripWs {l : List Char} {c : Char}
    (h : c ∈ pyRstripWs l) : c ∈ l := by
  unfold pyRstripWs at h
  rw [List.mem_reverse] at h
  have h2 := mem_of_mem_dropWhile h
  rwa [List.mem_reverse] at h2

theorem length_pyRstripWs_le (l : List Char) : (pyRstripWs l).length ≤ l.length := by
  unfold pyRstripWs
  rw [List.length_reverse]
  calc (l.reverse.dropWhile isPySpace).length ≤ l.reverse.length :=
        (List.dropWhile_sublist isPySpace).length_le
    _ = l.length := List.length_reverse l

theorem sanitize_core_chars (s : String) (maxLen : Nat) (c : Char)
    (h : c ∈ (sanitize_filename_component s maxLen).toList) :
    forbiddenChar c = false ∨ sanitize_filename_component s maxLen = "untitled" := by
  unfold sanitize_filename_component at *
  set t3 := pyStripSet (fun c => c = ' ' || c = '.')
      ((collapseRuns (pyStripWs s.toList)).filter (fun c => !forbiddenChar c)) with ht3
  by_cases hemp : (if maxLen < t3.length then pyRstripWs (t3.take maxLen) else t3).isEmpty
  · right; simp only [← ht3, hemp, if_true]
  · left
    simp only [← ht3, hemp, if_false, Bool.false_eq_true] at h
    have hmem : c ∈ t3 := by
      by_cases hlt : maxLen < t3.length
      · simp only [hlt, if_true] at h
        have h1 := mem_of_mem_pyRstripWs h
        exact (List.take_sublist maxLen t3).mem h1
      · simpa only [hlt, if_false] using h
    have hfil := mem_of_mem_pyStripSet hmem
    have := List.of_mem_filter hfil
    simpa using this

/-- C9 (counterexample): the claim asserts the sanitizer output length is at
most the maximum length for every input; with `max_len = 3` the empty input
yields the fixed placeholder `"untitled"` of length 8, exceeding the maximum. -/
theorem C9_counterexample :
    sanitize_filename_component ("") 3 = "untitled" ∧
    ¬ ((sanitize_filename_component ("") 3).length ≤ 3) := by
  constructor
  · rfl
  · decide

/-- C9 (amended): for every input and maximum length, the sanitizer output
contains none of the forbidden characters, its length is at most the maximum
length except that it may be the fixed placeholder `"untitled"` (length 8,
returned when the cleaned string is empty — so the length bound can fail only
when `max_len < 8`), the empty input yields `"untitled"`, and the output is
never the empty string.  The function is a pure Lean function, hence
deterministic. -/
theorem C9_sanitize_amended (s : String) (maxLen : Nat) :
    (sanitize_filename_component s maxLen).toList.all (fun c => !forbiddenChar c) = true ∧
    ((sanitize_filename_component s maxLen).length ≤ maxLen ∨
      sanitize_filename_component s maxLen = "untitled") ∧
    sanitize_filename_component ("") maxLen = "untitled" ∧
    (sanitize_filename_component s maxLen).isEmpty = false := by
  refine ⟨?_, ?_, ?_, ?_⟩
  · rw [List.all_eq_true]
    intro c hc
    rcases sanitize_core_chars s maxLen c hc with h | h
    · simp [h]
    · rw [h] at hc
      have hc2 : c ∈ ['u', 'n', 't', 'i', 't', 'l', 'e', 'd'] := hc
      fin_cases hc2 <;> decide
  · unfold sanitize_filename_component
    set t3 := pyStripSet (fun c => c = ' ' || c = '.')
        ((collapseRuns (pyStripWs s.toList)).filter (fun c => !forbiddenChar c)) with ht3
    by_cases hemp : (if maxLen < t3.length then pyRstripWs (t3.take maxLen) else t3).isEmpty
    · right; simp only [← ht3, hemp, if_true]
    · left
      simp only [← ht3, hemp, if_false, Bool.false_eq_true]
      by_cases hlt : maxLen < t3.length
      · simp only [hlt, if_true]
        show (pyRstripWs (t3.take maxLen)).length ≤ maxLen
        calc (pyRstripWs (t3.take maxLen)).length ≤ (t3.take maxLen).length :=
              length_pyRstripWs_le _
          _ ≤ maxLen := by rw [List.length_take]; exact Nat.min_le_left _ _
      · simp only [hlt, if_false]
        show t3.length ≤ maxLen
        exact Nat.le_of_not_lt hlt
  · simp [sanitize_filename_component, pyStripWs, pyStripSet, collapseRuns, collapseRunsGo]
  · unfold sanitize_filename_component
    set t3 := pyStripSet (fun c => c = ' ' || c = '.')
        ((collapseRuns (pyStripWs s.toList)).filter (fun c => !forbiddenChar c)) with ht3
    set t4 := (if maxLen < t3.length then pyRstripWs (t3.take maxLen) else t3) with ht4
    by_cases hemp : t4.isEmpty
    · simp only [← ht3, ← ht4, hemp, if_true]
      decide
    · simp only [← ht3, ← ht4, hemp, Bool.false_eq_true, if_false]
      rw [Bool.eq_false_iff]
      intro hc
      rw [String.isEmpty_iff] at hc
      rw [List.isEmpty_iff] at hemp
      apply hemp
      have : (String.mk t4).data = ("").data := by rw [hc]
      simpa using this

/-- Numeric value of an ASCII digit character. -/
def digitVal (c : Char) : Nat := c.toNat - 48

/-- `href.lower().endswith(".pdf")`: the last four characters, lowercased,
are `.pdf`.  (Python `str.lower` is applied to the whole string, but only
the last four characters influence the `endswith` test.) -/
def endsWithPdfCI (s : String) : Bool :=
  match s.toList.reverse with
  | f :: d :: p :: dot :: _ =>
    f.toLower == 'f' && d.toLower == 'd' && p.toLower == 'p' && dot.toLower == '.'
  | _ => false

/-- Result of matching `DATE_RE = (\d{1,2})-(\d{1,2})-(\d{4})\.pdf$` against
the end of a string: the unmatched prefix and the three captured groups as
integers. -/
structure DateMatch where
  pre : List Char
  day : Nat
  month : Nat
  year : Nat
deriving DecidableEq, Repr

/-- Day 2 digits, month 2 digits (the regex engine's first preference:
leftmost match start).  The argument is the reversed text before the dash
preceding the year. -/
def dm_d2m2 : List Char → Option (List Char × Nat × Nat)
  | mB :: mA :: h :: dB :: dA :: rest =>
    if mB.isDigit && mA.isDigit && h == '-' && dB.isDigit && dA.isDigit then
      some (rest, digitVal dA * 10 + digitVal dB, digitVal mA * 10 + digitVal mB)
    else none
  | _ => none

/-- Day 2 digits, month 1 digit (second preference: at the next start
position the greedy `\d{1,2}` day tries two digits first). -/
def dm_d2m1 : List Char → Option (List Char × Nat × Nat)
  | mU :: h :: dB :: dA :: rest =>
    if mU.isDigit && h == '-' && dB.isDigit && dA.isDigit then
      some (rest, digitVal dA * 10 + digitVal dB, digitVal mU)
    else none
  | _ => none

/-- Day 1 digit, month 2 digits (third preference). -/
def dm_d1m2 : List Char → Option (List Char × Nat × Nat)
  | mB :: mA :: h :: dU :: rest =>
    if mB.isDigit && mA.isDigit && h == '-' && dU.isDigit then
      some (rest, digitVal dU, digitVal mA * 10 + digitVal mB)
    else none
  | _ => none

/-- Day 1 digit, month 1 digit (last preference: shortest match). -/
def dm_d1m1 : List Char → Option (List Char × Nat × Nat)
  | mU :: h :: dU :: rest =>
    if mU.isDigit && h == '-' && dU.isDigit then
      some (rest, digitVal dU, digitVal mU)
    else none
  | _ => none

/-- The day-month part of `DATE_RE`, on the reversed text before the dash
preceding the year, in the regex engine's preference order (leftmost match
start first, then greedy day). -/
def dmPart (t : List Char) : Option (List Char × Nat × Nat) :=
  match dm_d2m2 t with
  | some r => some r
  | none =>
    match dm_d2m1 t with
    | some r => some r
    | none =>
      match dm_d1m2 t with
      | some r => some r
      | none => dm_d1m1 t

/-- `DATE_RE.search(s)` with `DATE_RE = (\d{1,2})-(\d{1,2})-(\d{4})\.pdf$`
(case-insensitive): because of the `$` anchor and the literal `.pdf` tail,
a match must end at the end of the string, so the fixed tail
`-YYYY.pdf` is read off the reversed string and the variable-width
day/month part is resolved by `dmPart`.  `\d` is modelled as ASCII digits. -/
def dateSuffix (cs : List Char) : Option DateMatch :=
  match cs.reverse with
  | f :: d :: p :: dot :: y0 :: y1 :: y2 :: y3 :: dash :: t =>
    if f.toLower == 'f' && d.toLower == 'd' && p.toLower == 'p' && dot == '.' &&
        y0.isDigit && y1.isDigit && y2.isDigit && y3.isDigit && dash == '-' then
      match dmPart t with
      | some r =>
        some ⟨r.1.reverse, r.2.1, r.2.2,
          digitVal y3 * 1000 + digitVal y2 * 100 + digitVal y1 * 10 + digitVal y0⟩
      | none => none
    else none
  | _ => none

/-- Python `f"{n:02d}"` for a natural number. -/
def pad2 (n : Nat) : String := if n < 10 then "0" ++ toString n else toString n

/-- Python `f"{n:04d}"` for a natural number. -/
def pad4 (n : Nat) : String :=
  if n < 10 then "000" ++ toString n
  else if n < 100 then "00" ++ toString n
  else if n < 1000 then "0" ++ toString n
  else toString n

/-- `f"{y:04d}-{mth:02d}-{d:02d}"`, the ISO-style date string built by the
listing parser. -/
def formatDate (y m d : Nat) : String := pad4 y ++ "-" ++ pad2 m ++ "-" ++ pad2 d

/-- Python `str.strip()` on a `String`. -/
def pyStripString (s : String) : String := ⟨pyStripWs s.toList⟩

/-- The body of the link loop in `parse_listing_for_year`: strip the href,
require a `.pdf` ending (case-insensitive), resolve it against the listing
URL (`urljoin(LIST_URL, ·)` is the `resolve` parameter), match `DATE_RE`
against the resolved URL, require the captured year to equal the target
year, and produce the `(date_iso, full_url)` pair. -/
def matchEntry (resolve : String → String) (year : Nat) (h0 : String) :
    Option (String × String) :=
  let href := pyStripString h0
  if endsWithPdfCI href then
    let full := resolve href
    match dateSuffix full.toList with
    | some dm => if dm.year = year then some (formatDate dm.year dm.month dm.day, full) else none
    | none => none
  else none

/-- The deduplication loop `dedup.setdefault(date_iso, url)` over an
insertion-ordered dict: keep the first pair for each date, in first-seen
order.  `seen` is the set of dates already in the dict. -/
def dedupGo : List String → List (String × String) → List (String × String)
  | _, [] => []
  | seen, p :: rest =>
    if p.1 ∈ seen then dedupGo seen rest
    else p :: dedupGo (p.1 :: seen) rest

/-- Deduplicate by date, keeping the first occurrence (the dict in
`parse_listing_for_year`). -/
def dedupByDate (l : List (String × String)) : List (String × String) := dedupGo [] l

instance : DecidableRel (fun (a b : String × String) => a.1.toList ≤ b.1.toList) :=
  fun a b => inferInstanceAs (Decidable (a.1.toList ≤ b.1.toList))

instance : IsTotal (String × String) (fun a b => a.1.toList ≤ b.1.toList) :=
  ⟨fun a b => le_total a.1.toList b.1.toList⟩

instance : IsTrans (String × String) (fun a b => a.1.toList ≤ b.1.toList) :=
  ⟨fun _ _ _ h1 h2 => le_trans h1 h2⟩

/-- `parse_listing_for_year(html, year)`, with the anchor hrefs of the
parsed HTML given as a list (in document order) and `urljoin(LIST_URL, ·)`
as the `resolve` parameter: filter and map the hrefs through `matchEntry`,
deduplicate by date keeping the first, and sort ascending by the date
string (`sorted(..., key=lambda x: x[0])`; a stable sort, modelled by
insertion sort, which is also stable).  Python string comparison is
code-point lexicographic, which is the `List Char` lexicographic order on
the code points (`String.le_iff_toList_le` connects it to `String` order). -/
def parse_listing_for_year (resolve : String → String) (hrefs : List String)
    (year : Nat) : List (String × String) :=
  let links := hrefs.filterMap (matchEntry resolve year)
  List.insertionSort (fun a b => a.1.toList ≤ b.1.toList) (dedupByDate links)

theorem mem_dedupGo_iff (l : List (String × String)) :
    ∀ (seen : List String) (p : String × String),
      p ∈ dedupGo seen l ↔
        (p.1 ∉ seen ∧ l.find? (fun q => q.1 == p.1) = some p) := by
  induction l with
  | nil => intro seen p; simp [dedupGo]
  | cons x rest ih =>
    intro seen p
    simp only [dedupGo]
    by_cases hx : x.1 ∈ seen
    · rw [if_pos hx, ih]
      by_cases hkey : x.1 = p.1
      · constructor
        · rintro ⟨h1, _⟩; exact absurd (hkey ▸ hx) h1
        · rintro ⟨h1, _⟩; exact absurd (hkey ▸ hx) h1
      · rw [List.find?_cons_of_neg]
        simp only [beq_iff_eq]
        exact hkey
    · rw [if_neg hx, List.mem_cons, ih]
      by_cases hkey : x.1 = p.1
      · rw [List.find?_cons_of_pos rest (show (x.1 == p.1) = true by simp [hkey])]
        constructor
        · rintro (rfl | ⟨h1, _⟩)
          · exact ⟨hx, rfl⟩
          · exact absurd (List.mem_cons_self x.1 seen) (hkey ▸ h1)
        · rintro ⟨_, h2⟩
          left
          exact (Option.some_inj.mp h2).symm
      · rw [List.find?_cons_of_neg rest (show ¬ (x.1 == p.1) = true by simp [hkey])]
        constructor
        · rintro (rfl | ⟨h1, h2⟩)
          · exact absurd rfl hkey
          · exact ⟨fun hs => h1 (List.mem_cons_of_mem _ hs), h2⟩
        · rintro ⟨h1, h2⟩
          right
          refine ⟨?_, h2⟩
          intro hmem
          rcases List.mem_cons.mp hmem with h | h
          · exact hkey h.symm
          · exact h1 h

theorem mem_dedupByDate_iff (l : List (String × String)) (p : String × String) :
    p ∈ dedupByDate l ↔ l.find? (fun q => q.1 == p.1) = some p := by
  rw [dedupByDate, mem_dedupGo_iff]
  simp

theorem dedupGo_pairwise_ne (l : List (String × String)) :
    ∀ seen : List String, (dedupGo seen l).Pairwise (fun a b => a.1 ≠ b.1) := by
  induction l with
  | nil => intro seen; simp [dedupGo]
  | cons x rest ih =>
    intro seen
    simp only [dedupGo]
    by_cases hx : x.1 ∈ seen
    · rw [if_pos hx]; exact ih seen
    · rw [if_neg hx]
      refine List.Pairwise.cons ?_ (ih _)
      intro b hb hEq
      have hmem := ((mem_dedupGo_iff rest (x.1 :: seen) b).mp hb).1
      exact hmem (hEq ▸ List.mem_cons_self x.1 seen)

/-- C1: `parse_listing_for_year` returns exactly the `(date_iso, url)` pairs
produced by the per-link filter `matchEntry` (stripped href ending in a PDF
extension, resolved URL ending in a `D-M-YYYY.pdf` suffix whose year equals
the target year; all other links are skipped), deduplicated by date with the
first-encountered link kept — membership in the output is equivalent to
being the *first* filtered pair carrying one's date — and strictly sorted
ascending by the date string (`<` is the code-point order on strings, and
the date strings are zero-padded fixed-width, so this is ascending date
order). -/
theorem C1_parse_listing_exact (resolve : String → String) (hrefs : List String)
    (year : Nat) :
    (parse_listing_for_year resolve hrefs year).Pairwise (fun a b => a.1 < b.1) ∧
    ∀ du : String × String,
      (du ∈ parse_listing_for_year resolve hrefs year ↔
        (hrefs.filterMap (matchEntry resolve year)).find? (fun q => q.1 == du.1) =
          some du) := by
  constructor
  · have hperm :
        List.Perm (parse_listing_for_year resolve hrefs year)
          (dedupByDate (hrefs.filterMap (matchEntry resolve year))) := by
      simpa [parse_listing_for_year] using
        (List.perm_insertionSort (fun (a b : String × String) => a.1.toList ≤ b.1.toList)
          (dedupByDate (hrefs.filterMap (matchEntry resolve year))))
    have hsorted :
        (parse_listing_for_year resolve hrefs year).Pairwise
          (fun a b => a.1.toList ≤ b.1.toList) := by
      simpa [parse_listing_for_year] using
        (List.sorted_insertionSort (fun (a b : String × String) => a.1.toList ≤ b.1.toList)
          (dedupByDate (hrefs.filterMap (matchEntry resolve year))))
    have hne :
        (parse_listing_for_year resolve hrefs year).Pairwise (fun a b => a.1 ≠ b.1) := by
      have hsymm : ∀ {x y : String × String}, x.1 ≠ y.1 → y.1 ≠ x.1 :=
        fun h hEq => h hEq.symm
      exact (List.Perm.pairwise_iff hsymm hperm).mpr
        (dedupGo_pairwise_ne (hrefs.filterMap (matchEntry resolve year)) [])
    refine (hsorted.and hne).imp ?_
    rintro a b ⟨hle, hneq⟩
    rw [String.lt_iff_toList_lt]
    refine lt_of_le_of_ne hle ?_
    intro hEq
    exact hneq (String.ext hEq)
  · intro du
    rw [← mem_dedupByDate_iff]
    simp only [parse_listing_for_year]
    exact List.mem_insertionSort (fun (a b : String × String) => a.1.toList ≤ b.1.toList)

/-- C10: the listing parser performs no calendar-range validation: for any
href whose stripped form ends in `.pdf` and whose resolved URL matches the
`D-M-YYYY.pdf` suffix with the target year, an entry is emitted whose date
string is just the zero-padded groups — even when the day or month is not a
valid calendar value (nothing constrains `day`/`mon` below). -/
theorem C10_no_calendar_validation (resolve : String → String) (h0 : String)
    (pre : List Char) (year day mon : Nat)
    (hpdf : endsWithPdfCI (pyStripString h0) = true)
    (hdate : dateSuffix (resolve (pyStripString h0)).toList = some ⟨pre, day, mon, year⟩) :
    parse_listing_for_year resolve [h0] year =
      [(formatDate year mon day, resolve (pyStripString h0))] := by
  have hm : matchEntry resolve year h0 =
      some (formatDate year mon day, resolve (pyStripString h0)) := by
    simp only [matchEntry, hpdf, if_true, hdate]
  simp [parse_listing_for_year, hm, dedupByDate, dedupGo, List.insertionSort]

/-- C10 (witness): the suffix `99-99-2025.pdf` — day 99, month 99, neither a
valid calendar value — still yields the entry `("2025-99-99", url)`. -/
theorem C10_witness :
    endsWithPdfCI (pyStripString ("x_99-99-2025.pdf")) = true ∧
    parse_listing_for_year id [("x_99-99-2025.pdf")] 2025 =
      [(("2025-99-99"), ("x_99-99-2025.pdf"))] :=
  ⟨by decide,
    C10_no_calendar_validation id ("x_99-99-2025.pdf") (("x_").toList) 2025 99 99
      (by decide) (by decide)⟩

/-- Terminator of the candidate regex `\)\s*([^()]{3,200}?)\s*\(`: after the
capture, greedy `\s*` then a literal `(`.  Only skipping the whole
whitespace run can expose a `(`, so the combination reduces to: drop
whitespace, require `(`.  Returns the rest after the `(`. -/
def matchClose (u : List Char) : Option (List Char) :=
  match u.dropWhile isPySpace with
  | c :: rest => if c = '(' then some rest else none
  | [] => none

/-- The lazy capture `([^()]{3,200}?)` followed by the terminator: try the
shortest capture first (at least 3, at most 200 non-parenthesis characters),
checking the terminator before each extension.  `acc` is the reversed
capture so far, `len` its length. -/
def tryCapAux : List Char → Nat → List Char → Option (List Char × List Char)
  | _, _, [] => none
  | acc, len, c :: rem2 =>
    match (if 3 ≤ len then matchClose (c :: rem2) else none) with
    | some rest => some (acc.reverse, rest)
    | none =>
      if len < 200 && !(c == '(') && !(c == ')') then
        tryCapAux (c :: acc) (len + 1) rem2
      else none

/-- The greedy `\s*` after the opening `\)`: try consuming `k` whitespace
characters, largest `k` first (the caller passes the whitespace-run length),
then the lazy capture. -/
def tryWs : Nat → List Char → Option (List Char × List Char)
  | 0, cs => tryCapAux [] 0 cs
  | k + 1, cs =>
    match tryCapAux [] 0 (cs.drop (k + 1)) with
    | some r => some r
    | none => tryWs k cs

/-- Fuel-indexed scan of `re.findall(r"\)\s*([^()]{3,200}?)\s*\(", text)`:
try a match at each position left to right; on success record the capture
and continue after the consumed match (non-overlapping), else advance one
character.  Fuel equal to the text length suffices: each successful match
consumes at least four characters of the remainder. -/
def findallGo : Nat → List Char → List (List Char)
  | 0, _ => []
  | _ + 1, [] => []
  | f + 1, c :: rest =>
    if c = ')' then
      match tryWs ((rest.takeWhile isPySpace).length) rest with
      | some r => r.1 :: findallGo f r.2
      | none => findallGo f rest
    else findallGo f rest

/-- All captures of the candidate regex over the text, in order. -/
def findallCands (cs : List Char) : List (List Char) := findallGo cs.length cs

/-- The candidate filter in the extraction loop:
`re.search(r"[؀-ۿ]", c2) or len(c2) >= 8` on the stripped
candidate. -/
def candPass (c : List Char) : Bool := c.any isArabicChar || decide (8 ≤ c.length)

/-- `text.find(pat)` worker, tracking the current index. -/
def pyFindGo : List Char → List Char → Nat → Option Nat
  | pat, [], i => if pat.isEmpty then some i else none
  | pat, c :: rest, i =>
    if pat.isPrefixOf (c :: rest) then some i else pyFindGo pat rest (i + 1)

/-- Python `text.find(pat)`: index of the first occurrence (`none` for
Python's `-1`). -/
def pyFind (pat cs : List Char) : Option Nat := pyFindGo pat cs 0

/-- Match a literal word at the head, returning the remainder. -/
def stripLit (w cs : List Char) : Option (List Char) :=
  if w.isPrefixOf cs then some (cs.drop w.length) else none

/-- Match `\s+` at the head: at least one whitespace character, greedily
(the following literal starts with a non-whitespace letter, so the maximal
run is the only viable extent). -/
def ws1 : List Char → Option (List Char)
  | c :: rest => if isPySpace c then some (rest.dropWhile isPySpace) else none
  | [] => none

/-- Match the boilerplate regex `عنوان\s+خطبة\s+الجمعة\s+الموحد` at the head
of the text, returning the remainder after the match. -/
def matchBoiler (cs : List Char) : Option (List Char) := do
  let r1 ← stripLit (("عنوان").toList) cs
  let r2 ← ws1 r1
  let r3 ← stripLit (("خطبة").toList) r2
  let r4 ← ws1 r3
  let r5 ← stripLit (("الجمعة").toList) r4
  let r6 ← ws1 r5
  stripLit (("الموحد").toList) r6

/-- Fuel-indexed worker for `re.sub(boilerplate, "", tail)`: remove every
(leftmost, non-overlapping) occurrence.  Fuel equal to the text length
suffices: a match consumes at least one character. -/
def subBoilerGo : Nat → List Char → List Char
  | 0, cs => cs
  | _ + 1, [] => []
  | f + 1, c :: rest =>
    match matchBoiler (c :: rest) with
    | some rem => subBoilerGo f rem
    | none => c :: subBoilerGo f rest

/-- `re.sub(r"عنوان\s+خطبة\s+الجمعة\s+الموحد", "", tail)`. -/
def subBoilerAll (cs : List Char) : List Char := subBoilerGo cs.length cs

/-- The punctuation/whitespace set of the final `tail.strip(":-–— ")`. -/
def stripPunctSet (c : Char) : Bool :=
  c = ':' || c = '-' || c = '–' || c = '—' || c = ' '

/-- The marker-word fallback of `extract_title_from_pdf`: find `عنوان`,
take 300 characters starting at it, remove the boilerplate phrase
(everywhere in the window — `re.sub` replaces all occurrences), strip
whitespace, strip the punctuation set, and accept iff at least 8 characters
remain (truncated to 120). -/
def titleFallback (text : List Char) : Option (List Char) :=
  match pyFind (("عنوان").toList) text with
  | none => none
  | some idx =>
    let tail := (text.drop idx).take 300
    let tail2 := pyStripWs (subBoilerAll tail)
    let tail3 := pyStripSet stripPunctSet tail2
    if 8 ≤ tail3.length then some (tail3.take 120) else none

/-- The text-level body of `extract_title_from_pdf`, after the first page's
text has been obtained: collapse whitespace; empty text means no title;
return the stripped first regex candidate that contains an Arabic character
or has stripped length at least 8; otherwise fall back to the marker-word
search. -/
def extract_title_core (text0 : List Char) : Option (List Char) :=
  let text := joinSplitWs text0
  if text.isEmpty then none
  else
    match (findallCands text).find? (fun c => candPass (pyStripWs c)) with
    | some c => some (pyStripWs c)
    | none => titleFallback text

/-- `extract_title_from_pdf(pdf_path)`: the interaction with `pdfplumber`
is modelled by `openResult` — `Except.error` when opening or reading the
first page raises (the `try`/`except` returns `None` in that case), `.ok
pages` with each page's `extract_text()` result (`none` for a `None` text,
mapped to `""` by `or ""`).  An empty document (`not pdf.pages`) yields no
title. -/
def extract_title_from_pdf {E : Type} (openResult : Except E (List (Option (List Char)))) :
    Option (List Char) :=
  match openResult with
  | .error _ => none
  | .ok [] => none
  | .ok (p0 :: _) => extract_title_core (p0.getD [])

/-- C2 (counterexample): the claim says the extractor picks the first
candidate containing an Arabic character, falling back to the first
candidate of length ≥ 8 only when *no* candidate contains Arabic.  On the
text `") abcdefgh ( ) عربية حروف ("` the candidate list is
`["abcdefgh", "عربية حروف"]`; an Arabic-containing candidate exists, yet
the extractor returns the earlier all-Latin candidate `"abcdefgh"`
(length ≥ 8): the loop takes whichever condition fires first, in candidate
order. -/
theorem C2_counterexample :
    extract_title_core ((") abcdefgh ( ) عربية حروف (").toList) =
      some (("abcdefgh").toList) ∧
    findallCands (joinSplitWs ((") abcdefgh ( ) عربية حروف (").toList)) =
      [("abcdefgh").toList, ("عربية حروف").toList] ∧
    (("عربية حروف").toList.any isArabicChar) = true ∧
    (("abcdefgh").toList.any isArabicChar) = false := by
  exact ⟨by decide, by decide, by decide, by decide⟩

/-- C2 (amended): when some candidate passes the single-pass filter
(stripped form containing an Arabic character *or* of length ≥ 8), the
extractor returns the stripped *first passing* candidate — Arabic content
is not prioritized over an earlier long non-Arabic candidate. -/
theorem C2_candidate_pick_amended (t c : List Char)
    (h : (findallCands (joinSplitWs t)).find? (fun c0 => candPass (pyStripWs c0)) =
      some c) :
    extract_title_core t = some (pyStripWs c) := by
  unfold extract_title_core
  by_cases hemp : (joinSplitWs t).isEmpty = true
  · rw [List.isEmpty_iff] at hemp
    rw [hemp] at h
    simp [findallCands, findallGo] at h
  · simp only [Bool.not_eq_true] at hemp
    simp only [hemp, Bool.false_eq_true, if_false]
    rw [h]

/-- C2 (witness): the specification's own example text
`"مرحبا ) عنوان الخطبة ( شكرا"` has the single candidate
`"عنوان الخطبة"`, which contains Arabic characters and is returned. -/
theorem C2_witness :
    (findallCands (joinSplitWs (("مرحبا ) عنوان الخطبة ( شكرا").toList))).find?
        (fun c0 => candPass (pyStripWs c0)) = some (("عنوان الخطبة").toList) ∧
    extract_title_core (("مرحبا ) عنوان الخطبة ( شكرا").toList) =
      some (pyStripWs (("عنوان الخطبة").toList)) :=
  ⟨by decide, C2_candidate_pick_amended (("مرحبا ) عنوان الخطبة ( شكرا").toList)
    (("عنوان الخطبة").toList) (by decide)⟩

/-- C6 (counterexample): the claim says the boilerplate phrase is stripped
(only) `if present immediately after the marker`.  On
`"عنوان abcdefgh عنوان خطبة الجمعة الموحد xyz"` the boilerplate is *not*
at the marker (the window starts `عنوان abcdefgh …`), yet `re.sub` removes
its later occurrence inside the window: the result is
`"عنوان abcdefgh  xyz"`, which differs both from the full window (what the
claim predicts: nothing to strip) and from the after-the-marker window
reading `"abcdefgh عنوان خطبة الجمعة الموحد xyz"`. -/
theorem C6_counterexample :
    extract_title_core (("عنوان abcdefgh عنوان خطبة الجمعة الموحد xyz").toList) =
      some (("عنوان abcdefgh  xyz").toList) ∧
    (("عنوان abcdefgh  xyz") == ("عنوان abcdefgh عنوان خطبة الجمعة الموحد xyz")) = false ∧
    (("عنوان abcdefgh  xyz") == ("abcdefgh عنوان خطبة الجمعة الموحد xyz")) = false := by
  exact ⟨by decide, by decide, by decide⟩

/-- C6 (amended): when no parenthesis candidate passes and the marker word
`عنوان` occurs (first) at index `idx` of the collapsed text, the extractor
takes the 300-character window *starting at the marker*, removes **every**
occurrence of the boilerplate phrase inside the window (not only one
immediately after the marker), strips whitespace and then the punctuation
set `:-–— `, and returns the remainder truncated to 120 characters iff it
has at least 8 characters, else no title. -/
theorem C6_fallback_amended (t : List Char) (idx : Nat)
    (hcand : (findallCands (joinSplitWs t)).find? (fun c0 => candPass (pyStripWs c0)) =
      none)
    (hidx : pyFind (("عنوان").toList) (joinSplitWs t) = some idx) :
    extract_title_core t =
      (if 8 ≤ (pyStripSet stripPunctSet
            (pyStripWs (subBoilerAll (((joinSplitWs t).drop idx).take 300)))).length then
        some ((pyStripSet stripPunctSet
          (pyStripWs (subBoilerAll (((joinSplitWs t).drop idx).take 300)))).take 120)
      else none) := by
  unfold extract_title_core
  by_cases hemp : (joinSplitWs t).isEmpty = true
  · rw [List.isEmpty_iff] at hemp
    rw [hemp] at hidx
    simp [pyFind, pyFindGo] at hidx
  · simp only [Bool.not_eq_true] at hemp
    simp only [hemp, Bool.false_eq_true, if_false]
    rw [hcand]
    unfold titleFallback
    rw [hidx]

/-- C6 (witness): on `"عنوان خطبة الجمعة الموحد: الصبر والشكر لله"` there are
no parenthesis candidates, the marker is at index 0, the boilerplate is
removed, punctuation stripped, and the 16-character remainder
`"الصبر والشكر لله"` is returned. -/
theorem C6_witness :
    (findallCands (joinSplitWs (("عنوان خطبة الجمعة الموحد: الصبر والشكر لله").toList))).find?
        (fun c0 => candPass (pyStripWs c0)) = none ∧
    extract_title_core (("عنوان خطبة الجمعة الموحد: الصبر والشكر لله").toList) =
      some (("الصبر والشكر لله").toList) :=
  ⟨by decide,
    by
      rw [C6_fallback_amended (("عنوان خطبة الجمعة الموحد: الصبر والشكر لله").toList) 0
        (by decide) (by decide)]
      decide⟩

theorem pySplitWsGo_all_space : ∀ (f : Nat) (p : List Char),
    (∀ c ∈ p, isPySpace c = true) → pySplitWsGo f p = [] := by
  intro f
  induction f with
  | zero => intro p _; rfl
  | succ f ih =>
    intro p hp
    cases p with
    | nil => rfl
    | cons c rest =>
      simp only [pySplitWsGo]
      rw [if_pos (hp c (List.mem_cons_self c rest))]
      exact ih rest (fun d hd => hp d (List.mem_cons_of_mem c hd))

/-- C8: every modelled PDF-library failure — an exception while opening or
reading (`Except.error`), a document with no pages, a first page whose
`extract_text()` returns `None`, or a first page whose text is empty or
whitespace-only — is treated as "no title found" (`none`).  The embedded
function is total, so no exception propagates. -/
theorem C8_extract_failures_none {E : Type} (r : Except E (List (Option (List Char))))
    (h : (∃ e : E, r = Except.error e) ∨
      r = Except.ok [] ∨
      (∃ rest, r = Except.ok (none :: rest)) ∨
      (∃ p rest, r = Except.ok (some p :: rest) ∧ ∀ c ∈ p, isPySpace c = true)) :
    extract_title_from_pdf r = none := by
  rcases h with ⟨e, rfl⟩ | rfl | ⟨rest, rfl⟩ | ⟨p, rest, rfl, hws⟩
  · rfl
  · rfl
  · rfl
  · show extract_title_core p = none
    have hsplit : joinSplitWs p = [] := by
      rw [joinSplitWs, pySplitWs, pySplitWsGo_all_space p.length p hws]
      rfl
    unfold extract_title_core
    rw [hsplit]
    rfl

/-- C8 (witness): an opening failure yields "no title found". -/
theorem C8_witness : extract_title_from_pdf (Except.error ()) = none :=
  C8_extract_failures_none (Except.error ()) (Or.inl ⟨(), rfl⟩)

/-- The runtime environment of the script for everything the optional
Arabic toolchain touches: the `HAVE_ARABIC_TOOLS` import flag, the external
`arabic_reshaper.reshape` and `bidi.algorithm.get_display` functions, the
presence of the `Amiri-Regular.ttf` font file, and the external
`textwrap.wrap`. -/
structure ScraperEnv where
  haveArabicTools : Bool
  reshape : String → String
  display : String → String
  fontFileExists : Bool
  wrap : String → Nat → List String

/-- `shape_rtl_arabic(s)`: when the tools are unavailable, return the
string unchanged (the source comments: "If tools aren't available, return
original (but we will avoid rendering Arabic then)"); when available,
reshape then reorder for display. -/
def shape_rtl_arabic (env : ScraperEnv) (s : String) : String :=
  if env.haveArabicTools then env.display (env.reshape s) else s

/-- A concrete environment with the Arabic toolchain unavailable. -/
def envNoTools : ScraperEnv :=
  ⟨false, id, id, false, fun s _ => [s]⟩

/-- C5 (counterexample): with the shaping facility unavailable,
`shape_rtl_arabic` returns Arabic input *unchanged* — precisely the
unshaped text the claim says is never returned; its type has no error
channel, so no "unsupported" signal exists. -/
theorem C5_counterexample :
    shape_rtl_arabic envNoTools ("السلام عليكم") = ("السلام عليكم") ∧
    contains_arabic ("السلام عليكم") = true ∧
    envNoTools.haveArabicTools = false :=
  ⟨rfl, by decide, rfl⟩

/-- C5 (amended): when the shaping facility is unavailable,
`shape_rtl_arabic` is the identity on *every* input (including text with
right-to-left characters); it does not signal — callers are expected to
check the capability flag and avoid rendering Arabic.  When the facility is
available the function returns `display (reshape s)`, whose behavior on
inputs without right-to-left characters belongs to the external
libraries. -/
theorem C5_shape_amended (env : ScraperEnv) (s : String)
    (h : env.haveArabicTools = false) :
    shape_rtl_arabic env s = s := by
  simp [shape_rtl_arabic, h]

/-- C5 (witness): the amended statement at a concrete Arabic string. -/
theorem C5_witness :
    envNoTools.haveArabicTools = false ∧
    shape_rtl_arabic envNoTools ("عنوان") = ("عنوان") :=
  ⟨rfl, C5_shape_amended envNoTools ("عنوان") rfl⟩

/-- The `pypdf.PdfWriter` accumulating pages in order. -/
structure PdfWriter (Page : Type) where
  pages : List Page
deriving DecidableEq

/-- `writer.add_page(p)`. -/
def PdfWriter.add_page {Page : Type} (w : PdfWriter Page) (p : Page) : PdfWriter Page :=
  ⟨w.pages ++ [p]⟩

/-- `merge_cover_with_original(cover_pdf, original_pdf, out_pdf)`: read both
documents (`PdfReader` raises on an unreadable file — the `Except`
parameters), append the cover's pages then the original's pages to a fresh
writer, and return the writer (the written file) together with
`len(reader_cover.pages) + len(reader_orig.pages)`. -/
def merge_cover_with_original {Page E : Type}
    (readCover readOrig : Except E (List Page)) :
    Except E (PdfWriter Page × Nat) := do
  let cover ← readCover
  let orig ← readOrig
  let w : PdfWriter Page := ⟨[]⟩
  let w := cover.foldl PdfWriter.add_page w
  let w := orig.foldl PdfWriter.add_page w
  pure (w, cover.length + orig.length)

theorem foldl_add_page {Page : Type} (l : List Page) :
    ∀ w : PdfWriter Page, (l.foldl PdfWriter.add_page w).pages = w.pages ++ l := by
  induction l with
  | nil => intro w; simp
  | cons p rest ih =>
    intro w
    rw [List.foldl_cons, ih]
    simp [PdfWriter.add_page]

/-- C7: for every pair of readable cover and original documents, the merger
produces a document whose page list is the cover's pages followed by the
original's pages, in order, with the page values unaltered, and returns a
page count equal to the cover's page count plus the original's. -/
theorem C7_merge_pages {Page E : Type} (rc ro : Except E (List Page))
    (cover orig : List Page)
    (h1 : rc = Except.ok cover) (h2 : ro = Except.ok orig) :
    merge_cover_with_original rc ro =
      Except.ok (⟨cover ++ orig⟩, cover.length + orig.length) := by
  subst h1 h2
  have hw : orig.foldl PdfWriter.add_page
      (cover.foldl PdfWriter.add_page (⟨[]⟩ : PdfWriter Page)) =
      (⟨cover ++ orig⟩ : PdfWriter Page) := by
    have hpg : (orig.foldl PdfWriter.add_page
        (cover.foldl PdfWriter.add_page (⟨[]⟩ : PdfWriter Page))).pages =
        cover ++ orig := by
      rw [foldl_add_page, foldl_add_page]
      simp
    cases hfold : orig.foldl PdfWriter.add_page
        (cover.foldl PdfWriter.add_page (⟨[]⟩ : PdfWriter Page))
    rw [hfold] at hpg
    simpa using hpg
  simp only [merge_cover_with_original, bind, Except.bind, pure, Except.pure]
  rw [hw]

/-- C7 (witness): merging a two-page cover with a one-page original gives
the three pages in order and count 3. -/
theorem C7_witness :
    merge_cover_with_original (Except.ok [10, 11]) (Except.ok ([12] : List Nat)) =
      (Except.ok (⟨[10, 11, 12]⟩, 3) : Except Unit (PdfWriter Nat × Nat)) :=
  C7_merge_pages (Except.ok [10, 11]) (Except.ok [12]) [10, 11] [12] rfl rfl

/-- `Path(pdf_url).name`: the component after the last slash.  (For the
URLs in the pipeline the path always ends in a `.pdf` filename.) -/
def lastPathComponent (cs : List Char) : List Char :=
  (cs.reverse.takeWhile (fun c => !(c == '/'))).reverse

/-- `re.sub(DATE_RE, "", base)`: the `$`-anchored regex matches at most
once, so substitution replaces the suffix match (if any) with nothing,
leaving the prefix. -/
def removeDateSuffix (cs : List Char) : List Char :=
  match dateSuffix cs with
  | some dm => dm.pre
  | none => cs

/-- The fallback title derived from the URL filename in `main`: take the
filename, strip the date suffix, replace underscores with spaces, strip
whitespace, defaulting to `"untitled"`. -/
def fallback_title (pdf_url : String) : String :=
  let base := lastPathComponent pdf_url.toList
  let base := removeDateSuffix base
  let base := base.map (fun c => if c = '_' then ' ' else c)
  let base := pyStripWs base
  if base.isEmpty then "untitled" else ⟨base⟩

/-- One manifest row (the fields relevant to the processing loop; the
static country/authority columns and timestamp are constants per run). -/
structure ManifestRow where
  date_iso : String
  title : String
  source_url : String
  local_filename : String
  sha256 : String
  pages_total : Nat
deriving DecidableEq, Repr

/-- The fallible side effects of one loop iteration of `main`, as functions
of the entry: downloading the original (`download_file`), opening the
downloaded PDF for title extraction (`pdfplumber`, consumed by
`extract_title_from_pdf` which never propagates its failure), writing the
cover PDF (`make_cover_pdf`: reportlab canvas save), and merging/writing
the final PDF (`merge_cover_with_original`, returning the page count).
`hashFile` is `sha256_file` on the merged output.  In the Python source
none of these calls is wrapped in a `try`/`except` inside the loop, so an
exception (`Except.error`) propagates out of the loop. -/
structure RunOps (E : Type) where
  download : String → Except E Unit
  openPdf : String → Except E (List (Option (List Char)))
  writeCover : String → Except E Unit
  mergeWrite : String → Except E Nat
  hashFile : String → String

/-- One iteration of the loop in `main` over `(date_iso, pdf_url)`:
download, extract the title (falling back to the filename-derived title
when extraction yields nothing — Python's `if not title` also catches an
empty string), sanitize it for the output filename, write the cover, merge,
and build the manifest row. -/
def processEntry {E : Type} (ops : RunOps E) (pair : String × String) :
    Except E ManifestRow := do
  let dateIso := pair.1
  let pdfUrl := pair.2
  ops.download pdfUrl
  let t0 := extract_title_from_pdf (ops.openPdf pdfUrl)
  let title : String :=
    match t0 with
    | some cs => if cs.isEmpty then fallback_title pdfUrl else ⟨cs⟩
    | none => fallback_title pdfUrl
  let titleClean := sanitize_filename_component title 90
  ops.writeCover dateIso
  let pages ← ops.mergeWrite dateIso
  pure ⟨dateIso, title, pdfUrl,
    ("pdfs/") ++ dateIso ++ (" - ") ++ titleClean ++ (".pdf"),
    ops.hashFile dateIso, pages⟩

/-- The `for date_iso, pdf_url in pairs:` loop of `main`, accumulating
manifest rows.  `write_manifest_csv` runs only after the loop completes, so
the manifest exists only in the `.ok` case; an `Except.error` models an
uncaught exception aborting the run with no manifest written. -/
def run_pipeline {E : Type} (ops : RunOps E) :
    List (String × String) → Except E (List ManifestRow)
  | [] => Except.ok []
  | p :: rest => do
    let r ← processEntry ops p
    let rs ← run_pipeline ops rest
    pure (r :: rs)

instance exceptDecEq {E α : Type} [DecidableEq E] [DecidableEq α] :
    DecidableEq (Except E α) := fun x y =>
  match x, y with
  | Except.error e1, Except.error e2 =>
    if h : e1 = e2 then isTrue (by rw [h])
    else isFalse (fun hc => h (by injection hc))
  | Except.ok a1, Except.ok a2 =>
    if h : a1 = a2 then isTrue (by rw [h])
    else isFalse (fun hc => h (by injection hc))
  | Except.error _, Except.ok _ => isFalse (fun hc => by injection hc)
  | Except.ok _, Except.error _ => isFalse (fun hc => by injection hc)

/-- Concrete operations where writing the cover for the 2025-01-03 entry
fails and everything else succeeds. -/
def opsCoverFail : RunOps String :=
  ⟨fun _ => Except.ok (),
   fun _ => Except.ok [],
   fun d => if d == "2025-01-03" then Except.error ("disk full") else Except.ok (),
   fun _ => Except.ok 3,
   fun _ => "feedc0de"⟩

/-- C4 (counterexample): with a cover-composition failure on the first
entry, the whole run aborts with that error — `run_pipeline` returns
`Except.error`, so no manifest is produced at all — even though the second
entry is individually processable (second conjunct).  The claim predicted
the run continues and the manifest contains the second entry. -/
theorem C4_counterexample :
    run_pipeline opsCoverFail
      [("2025-01-03", "http://a/x_3-1-2025.pdf"),
       ("2025-01-10", "http://a/y_10-1-2025.pdf")] =
      Except.error ("disk full") ∧
    processEntry opsCoverFail ("2025-01-10", "http://a/y_10-1-2025.pdf") =
      Except.ok ⟨"2025-01-10", "y", "http://a/y_10-1-2025.pdf",
        "pdfs/2025-01-10 - y.pdf", "feedc0de", 3⟩ := by
  exact ⟨by decide, by decide⟩

/-- C4 (amended): there is no per-entry exception handling in the loop: if
every entry before `p` succeeds and cover composition or merging for `p`
fails, the whole run aborts with that error (`run_pipeline` propagates it),
so no manifest is written — neither the earlier successful entries nor the
remaining unprocessed ones appear anywhere. -/
theorem C4_failure_aborts_run {E : Type} (ops : RunOps E)
    (l1 l2 : List (String × String)) (p : String × String) (e : E)
    (hok : ∀ q ∈ l1, ∃ r, processEntry ops q = Except.ok r)
    (hfail : processEntry ops p = Except.error e) :
    run_pipeline ops (l1 ++ p :: l2) = Except.error e := by
  induction l1 with
  | nil =>
    show run_pipeline ops (p :: l2) = Except.error e
    simp only [run_pipeline, hfail]
    rfl
  | cons q l1x ih =>
    obtain ⟨r, hr⟩ := hok q (List.mem_cons_self q l1x)
    have hrest := ih (fun q2 hq2 => hok q2 (List.mem_cons_of_mem q hq2))
    show run_pipeline ops (q :: (l1x ++ p :: l2)) = Except.error e
    simp only [run_pipeline, hr, hrest]
    rfl

/-- C4 (witness): the amended statement at the concrete failing batch. -/
theorem C4_witness :
    run_pipeline opsCoverFail
      [("2025-01-03", "http://a/x_3-1-2025.pdf"),
       ("2025-01-10", "http://a/y_10-1-2025.pdf")] =
      Except.error ("disk full") :=
  C4_failure_aborts_run opsCoverFail []
    [("2025-01-10", "http://a/y_10-1-2025.pdf")]
    ("2025-01-03", "http://a/x_3-1-2025.pdf") ("disk full")
    (fun q hq => absurd hq (List.not_mem_nil q))
    (by decide)

/-- Constants of the script. -/
def COUNTRY : String := "Jordan"

/-- `AUTHORITY_EN` from the source. -/
def AUTHORITY_EN : String :=
  "Ministry of Awqaf and Islamic Affairs and Holy Places (Jordan)"

/-- `AUTHORITY_AR` from the source. -/
def AUTHORITY_AR : String :=
  "وزارة الأوقاف والشؤون والمقدسات الإسلامية - الأردن"

/-- The banner line drawn at the top of the cover. -/
def coverBanner : String :=
  "Friday Sermon (Khutbah) | For Ustadh Humoyun | By Oybek Abdukhalimov"

/-- The placeholder drawn instead of an Arabic value when the Arabic font
is unavailable. -/
def fontPlaceholder : String := "[Arabic text omitted: font not available]"

/-- The closing note drawn at the bottom of the cover. -/
def coverNote : String :=
  "Note: I always prioritize beauty and conciseness. I didn\x27t want to put long ugly label with all information. Thus, I created additional meta-page that provides all details before you dive into the khutbah! Hope you like it ;)"

/-- One text-drawing operation on the reportlab canvas: position, alignment
(`drawString` vs `drawRightString`), the font active at the call, and the
drawn text. -/
structure DrawOp where
  x : Int
  y : Int
  rightAligned : Bool
  font : String
  size : Nat
  text : String
deriving DecidableEq, Repr

/-- The reportlab canvas: finished pages (in order), the operations of the
current page (in order), and the current font state. -/
structure Canvas where
  pages : List (List DrawOp)
  cur : List DrawOp
  font : String
  size : Nat
deriving DecidableEq, Repr

/-- `c.setFont(f, n)`. -/
def Canvas.setFont (c : Canvas) (f : String) (n : Nat) : Canvas :=
  ⟨c.pages, c.cur, f, n⟩

/-- `c.drawString(x, y, s)` (left-aligned at `x`). -/
def Canvas.drawString (c : Canvas) (x y : Int) (s : String) : Canvas :=
  ⟨c.pages, c.cur ++ [⟨x, y, false, c.font, c.size, s⟩], c.font, c.size⟩

/-- `c.drawRightString(x, y, s)` (right-aligned at `x`). -/
def Canvas.drawRightString (c : Canvas) (x y : Int) (s : String) : Canvas :=
  ⟨c.pages, c.cur ++ [⟨x, y, true, c.font, c.size, s⟩], c.font, c.size⟩

/-- `c.showPage()`: finish the current page; reportlab resets the graphics
state (the code re-sets the font after every page break before drawing). -/
def Canvas.showPage (c : Canvas) : Canvas :=
  ⟨c.pages ++ [c.cur], [], "", 0⟩

/-- Every operation drawn on the canvas so far, in drawing order. -/
def Canvas.opsAll (c : Canvas) : List DrawOp := c.pages.flatten ++ c.cur

/-- The texts drawn on the canvas so far, in drawing order. -/
def canvasTexts (c : Canvas) : List String := c.opsAll.map DrawOp.text

/-- `wrap_text(s, width)` from the source:
`textwrap.wrap(s, width=width) if s else [""]`; `textwrap.wrap` itself is
external (`env.wrap`). -/
def wrap_text (env : ScraperEnv) (s : String) (w : Nat) : List String :=
  if s.isEmpty then [""] else env.wrap s w

/-- A value-rendering loop body of `make_cover_pdf`: draw each line at `x`
(right-aligned if `right`, transformed by `tr` — `shape_rtl_arabic` on the
Arabic paths, identity otherwise), advance the cursor by `line_h = 14`, and
on crossing the bottom margin (`y < 72`) start a new page, restore the
font, and reset the cursor to `height - 72 = 720`. -/
def drawWrapped (tr : String → String) (x : Int) (right : Bool) (fname : String)
    (fsize : Nat) : List String → Canvas × Int → Canvas × Int
  | [], st => st
  | l :: rest, st =>
    let c := if right then st.1.drawRightString x st.2 (tr l)
      else st.1.drawString x st.2 (tr l)
    let y2 := st.2 - 14
    let st2 : Canvas × Int :=
      if y2 < 72 then ((c.showPage).setFont fname fsize, (720 : Int)) else (c, y2)
    drawWrapped tr x right fname fsize rest st2

/-- The closing-note loop of `make_cover_pdf`: draw each line at the left
margin with no pagination check. -/
def drawNoteLines : List String → Canvas × Int → Canvas × Int
  | [], st => st
  | l :: rest, st => drawNoteLines rest (st.1.drawString 54 st.2 l, st.2 - 14)

/-- `v.split(" / ", 1)` style split at the first occurrence of `sep`:
`none` when the separator does not occur (Python `" / " in v` is false). -/
def splitOnFirstGo (sep : List Char) : List Char → List Char → Option (List Char × List Char)
  | _, [] => none
  | acc, c :: rest =>
    if sep.isPrefixOf (c :: rest) then some (acc.reverse, (c :: rest).drop sep.length)
    else splitOnFirstGo sep (c :: acc) rest

/-- Split a string at the first occurrence of the separator. -/
def splitOnFirst (sep cs : List Char) : Option (List Char × List Char) :=
  splitOnFirstGo sep [] cs

/-- The general value-rendering branch of the field loop: Arabic values use
the Arabic font, right alignment and shaping when available; otherwise the
value is drawn left-aligned in Helvetica, substituted by the placeholder
when it contains Arabic and no Arabic font is registered. -/
def coverGeneralValue (env : ScraperEnv) (arabicFontAvailable : Bool)
    (c : Canvas) (y : Int) (v : String) : Canvas × Int :=
  if arabicFontAvailable && contains_arabic v then
    let c := c.setFont ("Amiri") 12
    let st1 := drawWrapped (shape_rtl_arabic env) 558 true ("Amiri") 12
      (wrap_text env v 70) (c, y)
    (st1.1, st1.2 - 6)
  else
    let v2 := if !arabicFontAvailable && contains_arabic v then fontPlaceholder else v
    let c := c.setFont ("Helvetica") 11
    let st1 := drawWrapped id 194 false ("Helvetica") 11 (wrap_text env v2 95) (c, y)
    (st1.1, st1.2 - 6)

/-- One iteration of the field loop of `make_cover_pdf`: draw the bold
label (the source then does `y -= 0`, so the first value line shares the
label's line); the `Issuing authority` field with a `" / "` separator
renders the English half left-aligned and the Arabic half right-aligned
(the latter only when the Arabic font is available *and* the half contains
Arabic); every other case goes through the general branch. -/
def coverField (env : ScraperEnv) (arabicFontAvailable : Bool)
    (st : Canvas × Int) (kv : String × String) : Canvas × Int :=
  let c := st.1.setFont ("Helvetica-Bold") 11
  let c := c.drawString 54 st.2 (kv.1 ++ (":"))
  if kv.1 = ("Issuing authority") then
    match splitOnFirst ((" / ").toList) kv.2.toList with
    | some pr =>
      let c := c.setFont ("Helvetica") 11
      let st1 := drawWrapped id 194 false ("Helvetica") 11
        (wrap_text env ⟨pr.1⟩ 95) (c, st.2)
      let st2 :=
        if arabicFontAvailable && contains_arabic ⟨pr.2⟩ then
          let c2 := st1.1.setFont ("Amiri") 12
          drawWrapped (shape_rtl_arabic env) 558 true ("Amiri") 12
            (wrap_text env ⟨pr.2⟩ 70) (c2, st1.2)
        else st1
      (st2.1, st2.2 - 6)
    | none => coverGeneralValue env arabicFontAvailable c st.2 kv.2
  else coverGeneralValue env arabicFontAvailable c st.2 kv.2

/-- `make_cover_pdf(cover_path, date_iso, title, source_url, retrieved_at)`:
LETTER page (612 × 792), margins `left = 54`, initial cursor
`height - 72 = 720`, `value_x = 194`, `value_right_x = 558`; the Arabic
font is registered only when the font file exists *and* the Arabic tools
imported; banner, six labelled fields, then the closing note and the final
`showPage()`/`save()`. -/
def make_cover_pdf (env : ScraperEnv)
    (date_iso title source_url retrieved_at : String) : Canvas :=
  let arabicFontAvailable := env.fontFileExists && env.haveArabicTools
  let c : Canvas := ⟨[], [], "", 0⟩
  let y : Int := 720
  let c := c.setFont ("Helvetica-Bold") 14
  let c := c.drawString 54 y coverBanner
  let y := y - 28
  let c := c.setFont ("Helvetica") 11
  let issuing_value := AUTHORITY_EN ++ (" / ") ++ AUTHORITY_AR
  let fields : List (String × String) :=
    [(("Country"), COUNTRY), (("Issuing authority"), issuing_value),
     (("Sermon date (Gregorian)"), date_iso), (("Sermon title (extracted)"), title),
     (("Source URL"), source_url), (("Retrieved at"), retrieved_at)]
  let st := fields.foldl (coverField env arabicFontAvailable) (c, y)
  let c2 := st.1.setFont ("Helvetica-Oblique") 10
  let st2 := drawNoteLines (wrap_text env coverNote 110) (c2, st.2)
  st2.1.showPage

theorem canvasTexts_setFont (c : Canvas) (f : String) (n : Nat) :
    canvasTexts (c.setFont f n) = canvasTexts c := rfl

theorem canvasTexts_drawString (c : Canvas) (x y : Int) (s : String) :
    canvasTexts (c.drawString x y s) = canvasTexts c ++ [s] := by
  simp [canvasTexts, Canvas.opsAll, Canvas.drawString]

theorem canvasTexts_drawRightString (c : Canvas) (x y : Int) (s : String) :
    canvasTexts (c.drawRightString x y s) = canvasTexts c ++ [s] := by
  simp [canvasTexts, Canvas.opsAll, Canvas.drawRightString]

theorem canvasTexts_showPage (c : Canvas) :
    canvasTexts (c.showPage) = canvasTexts c := by
  simp [canvasTexts, Canvas.opsAll, Canvas.showPage]

theorem canvasTexts_drawWrapped (tr : String → String) (x : Int) (right : Bool)
    (fname : String) (fsize : Nat) :
    ∀ (lines : List String) (st : Canvas × Int),
      canvasTexts ((drawWrapped tr x right fname fsize lines st).1) =
        canvasTexts st.1 ++ lines.map tr := by
  intro lines
  induction lines with
  | nil => intro st; simp [drawWrapped]
  | cons l rest ih =>
    intro st
    simp only [drawWrapped]
    rw [ih]
    by_cases hr : right = true
    · by_cases hy : st.2 - 14 < 72
      · simp [hr, hy, canvasTexts_setFont, canvasTexts_showPage,
          canvasTexts_drawRightString]
      · simp [hr, hy, canvasTexts_drawRightString]
    · simp only [Bool.not_eq_true] at hr
      by_cases hy : st.2 - 14 < 72
      · simp [hr, hy, canvasTexts_setFont, canvasTexts_showPage,
          canvasTexts_drawString]
      · simp [hr, hy, canvasTexts_drawString]

theorem canvasTexts_drawNoteLines :
    ∀ (lines : List String) (st : Canvas × Int),
      canvasTexts ((drawNoteLines lines st).1) = canvasTexts st.1 ++ lines := by
  intro lines
  induction lines with
  | nil => intro st; simp [drawNoteLines]
  | cons l rest ih =>
    intro st
    simp only [drawNoteLines]
    rw [ih]
    simp [canvasTexts_drawString]

theorem canvasTexts_coverGeneralValue_noFont (env : ScraperEnv) (c : Canvas)
    (y : Int) (v : String) :
    canvasTexts ((coverGeneralValue env false c y v).1) =
      canvasTexts c ++
        wrap_text env (if contains_arabic v then fontPlaceholder else v) 95 := by
  unfold coverGeneralValue
  simp only [Bool.false_and, Bool.false_eq_true, if_false, Bool.not_false,
    Bool.true_and]
  rw [canvasTexts_drawWrapped]
  simp [canvasTexts_setFont]

theorem canvasTexts_coverField_general (env : ScraperEnv) (st : Canvas × Int)
    (k v : String) (hk : ¬ k = ("Issuing authority")) :
    canvasTexts ((coverField env false st (k, v)).1) =
      canvasTexts st.1 ++ [k ++ (":")] ++
        wrap_text env (if contains_arabic v then fontPlaceholder else v) 95 := by
  unfold coverField
  simp only [hk, if_false]
  rw [canvasTexts_coverGeneralValue_noFont]
  rw [canvasTexts_drawString]
  simp [canvasTexts_setFont, List.append_assoc]

theorem canvasTexts_coverField_issuing (env : ScraperEnv) (st : Canvas × Int) :
    canvasTexts ((coverField env false st
        (("Issuing authority"), AUTHORITY_EN ++ (" / ") ++ AUTHORITY_AR)).1) =
      canvasTexts st.1 ++ [("Issuing authority") ++ (":")] ++
        wrap_text env AUTHORITY_EN 95 := by
  have hsplit : splitOnFirst ((" / ").toList)
      (AUTHORITY_EN ++ (" / ") ++ AUTHORITY_AR).toList =
      some (AUTHORITY_EN.toList, AUTHORITY_AR.toList) := by decide
  unfold coverField
  simp only [hsplit, reduceIte, Bool.false_and, Bool.false_eq_true, if_false]
  rw [show (⟨AUTHORITY_EN.toList⟩ : String) = AUTHORITY_EN from rfl]
  rw [canvasTexts_drawWrapped]
  simp [canvasTexts_setFont, canvasTexts_drawString, List.append_assoc]

theorem canvasTexts_empty : canvasTexts ⟨[], [], "", 0⟩ = [] := rfl

/-- C3 (amended): when right-to-left support is unavailable (no shaping
tools or no font file), `make_cover_pdf` never fails (it is a total
function) and draws exactly: the banner; each bold label; for the four
general fields the value itself when it contains no Arabic and the fixed
placeholder `"[Arabic text omitted: font not available]"` when it does
(the placeholder is rendered, the field is not omitted and no unshaped
Arabic is drawn); for the `Issuing authority` field only the English half —
its Arabic half is omitted entirely, with no placeholder; and the closing
note.  In particular no drawn text contains an Arabic character. -/
theorem C3_cover_amended (env : ScraperEnv) (d t u r : String)
    (hna : (env.fontFileExists && env.haveArabicTools) = false) :
    canvasTexts (make_cover_pdf env d t u r) =
      [coverBanner] ++
      [("Country") ++ (":")] ++ wrap_text env COUNTRY 95 ++
      [("Issuing authority") ++ (":")] ++ wrap_text env AUTHORITY_EN 95 ++
      [("Sermon date (Gregorian)") ++ (":")] ++
        wrap_text env (if contains_arabic d then fontPlaceholder else d) 95 ++
      [("Sermon title (extracted)") ++ (":")] ++
        wrap_text env (if contains_arabic t then fontPlaceholder else t) 95 ++
      [("Source URL") ++ (":")] ++
        wrap_text env (if contains_arabic u then fontPlaceholder else u) 95 ++
      [("Retrieved at") ++ (":")] ++
        wrap_text env (if contains_arabic r then fontPlaceholder else r) 95 ++
      wrap_text env coverNote 110 := by
  simp only [make_cover_pdf, hna, List.foldl_cons, List.foldl_nil]
  simp only [canvasTexts_showPage, canvasTexts_drawNoteLines, canvasTexts_setFont]
  rw [canvasTexts_coverField_general, canvasTexts_coverField_general,
    canvasTexts_coverField_general, canvasTexts_coverField_general,
    canvasTexts_coverField_issuing, canvasTexts_coverField_general]
  simp only [canvasTexts_setFont, canvasTexts_drawString, canvasTexts_empty]
  rw [show contains_arabic COUNTRY = false from by decide]
  simp [List.append_assoc]
  all_goals decide

/-- C3 (counterexample): with right-to-left support unavailable, the
`Issuing authority` value contains Arabic (its Arabic half), yet the
produced document contains *no* placeholder operation at all and no Arabic
text: the Arabic half is omitted entirely rather than rendered as a
placeholder, contradicting the claim's "in particular" clause. -/
theorem C3_counterexample :
    contains_arabic (AUTHORITY_EN ++ (" / ") ++ AUTHORITY_AR) = true ∧
    (canvasTexts (make_cover_pdf envNoTools ("2025-01-03") ("Patience")
        ("http://a/x.pdf") ("2025-10-12T00:00:00Z"))).any
      (fun s => s == fontPlaceholder) = false ∧
    (canvasTexts (make_cover_pdf envNoTools ("2025-01-03") ("Patience")
        ("http://a/x.pdf") ("2025-10-12T00:00:00Z"))).any contains_arabic = false := by
  exact ⟨by decide, by decide, by decide⟩

/-- C3 (witness): the amended statement at a concrete run with an Arabic
title and right-to-left support unavailable: the title is rendered as the
placeholder, the authority field shows only its English half, and nothing
Arabic is drawn. -/
theorem C3_witness :
    canvasTexts (make_cover_pdf envNoTools ("2025-01-03") ("خطبة عن الصبر")
        ("http://a/x.pdf") ("ts")) =
      [coverBanner, ("Country:"), COUNTRY, ("Issuing authority:"), AUTHORITY_EN,
       ("Sermon date (Gregorian):"), ("2025-01-03"), ("Sermon title (extracted):"),
       fontPlaceholder, ("Source URL:"), ("http://a/x.pdf"), ("Retrieved at:"),
       ("ts"), coverNote] := by
  rw [C3_cover_amended envNoTools ("2025-01-03") ("خطبة عن الصبر")
    ("http://a/x.pdf") ("ts") rfl]
  decide
